import Mathlib

/-!
Shallow embedding of the soshell interactive shell (src/main.c) and proofs
about its dispatcher, builtins, tokenizer, line reader and process launcher.

Modelling conventions:
* A token sequence (the C null-terminated array of strings) is a
  List String; the null sentinel is the end of the list, so the empty
  sequence (sentinel at position 0) is the empty list.
* The continuation signal is the C int returned by every handler:
  1 means continue the loop, 0 means terminate it.
* The operating system's responses to system calls (chdir, remove,
  opendir/readdir, fork, execvp, waitpid, strerror) are an oracle record
  OS; the shell's own mutable state (working directory, successful
  remove calls, text written to stdout and stderr) is a record World.
* A handler returns Option (Int x World): some (signal, world) for a
  normal return, none when the C code would not return normally
  (undefined behaviour, or a wait loop that never sees a terminal
  status).
-/

namespace Soshell

/-- Outcome of one waitpid call, as classified by the macros the C code
tests: WIFEXITED, WIFSIGNALED, WIFSTOPPED (reported because of WUNTRACED). -/
inductive WaitStatus where
  | exited (code : Nat)
  | signaled (sig : Nat)
  | stopped (sig : Nat)
  deriving DecidableEq, Repr

/-- WIFEXITED(status) or WIFSIGNALED(status): the statuses the parent's
do/while loop accepts as completion. -/
def isTerminal : WaitStatus → Bool
  | WaitStatus.exited _ => true
  | WaitStatus.signaled _ => true
  | WaitStatus.stopped _ => false

/-- Oracle describing the operating system's responses to the system calls
soshell issues.  Filesystem calls take the current working directory first,
since the kernel resolves relative paths against it. -/
structure OS where
  chdirOk : String → String → Bool
  chdirDest : String → String → String
  errnoMsg : String
  removeOk : String → String → Bool
  opendirOk : String → String → Bool
  entries : String → String → List String
  forkOk : Bool
  execOk : String → Bool
  waits : List WaitStatus

/-- The shell process's mutable state: its working directory, the trace of
files it has successfully removed, and the text written to the normal
(stdout) and diagnostic (stderr) output streams. -/
structure World where
  cwd : String
  removed : List (String × String)
  out : List String
  err : List String
  deriving DecidableEq, Repr

def SIGNAL_CONTINUE : Int := 1

def SIGNAL_TERMINATE : Int := 0

def EXIT_SUCCESS : Nat := 0

def EXIT_FAILURE : Nat := 1

/-- Text produced by perror("soshell"): the prefix, a colon-space, the
strerror text for the current errno, and a newline. -/
def perrorMsg (os : OS) : String := "soshell: " ++ os.errnoMsg ++ "\n"

def cdMissingArgMsg : String := "soshell: expected argument to \"cd\"\n"

def rmMissingArgMsg : String := "You must provide a file\n"

def rmFailMsg : String := "Could not remove file.\n"

abbrev Handler := OS → World → List String → Option (Int × World)

/-- soshell_cd (main.c:59-69): args[1] missing prints to stderr; a failed
chdir calls perror; a successful chdir changes the working directory.
Always returns 1. -/
def soshell_cd : Handler := fun os w args =>
  match args[1]? with
  | none => some (1, { w with err := w.err ++ [cdMissingArgMsg] })
  | some d =>
      if os.chdirOk w.cwd d then
        some (1, { w with cwd := os.chdirDest w.cwd d })
      else
        some (1, { w with err := w.err ++ [perrorMsg os] })

/-- soshell_ls (main.c:87-104) with get_next (main.c:71-80): with an
argument, a failed opendir prints "Unknown directory" to stdout and
returns 1; otherwise every readdir entry is printed to stdout.  With no
argument the code calls opendir(".") and never checks the result: on
failure it passes a null stream to readdir, which is undefined behaviour,
modelled as none. -/
def soshell_ls : Handler := fun os w args =>
  match args[1]? with
  | some d =>
      if os.opendirOk w.cwd d then
        some (1, { w with out := w.out ++ (os.entries w.cwd d).map (· ++ "\n") })
      else
        some (1, { w with out := w.out ++ ["Unknown directory " ++ d ++ "\n"] })
  | none =>
      if os.opendirOk w.cwd "." then
        some (1, { w with out := w.out ++ (os.entries w.cwd ".").map (· ++ "\n") })
      else
        none

/-- soshell_rm (main.c:111-123): args[1] missing prints to stdout; a failed
remove prints to stdout; a successful remove deletes the file (recorded in
the removed trace).  Always returns 1. -/
def soshell_rm : Handler := fun os w args =>
  match args[1]? with
  | none => some (1, { w with out := w.out ++ [rmMissingArgMsg] })
  | some f =>
      if os.removeOk w.cwd f then
        some (1, { w with removed := w.removed ++ [(w.cwd, f)] })
      else
        some (1, { w with out := w.out ++ [rmFailMsg] })

/-- The five builtin names, in table order (main.c:30-36). -/
def builtin_str : List String := ["cd", "ls", "rm", "help", "exit"]

/-- The text soshell_help prints: the banner, one indented line per
builtin name in table order, and the closing line. -/
def helpText : List String :=
  ["Soviet Linux soshell\n",
   "Type program names and arguments, and hit enter.\n",
   "The following are built in:\n"] ++
  builtin_str.map (fun s => "  " ++ s ++ "\n") ++
  ["Use the man command for information on other programs.\n"]

/-- soshell_help (main.c:130-143): prints the banner, the builtin names,
and the closing line to stdout; ignores its arguments; returns 1. -/
def soshell_help : Handler := fun _ w _ =>
  some (1, { w with out := w.out ++ helpText })

/-- soshell_exit (main.c:150-153): ignores its arguments and returns 0. -/
def soshell_exit : Handler := fun _ w _ => some (0, w)

/-- The parent's reaping loop (main.c:177-179):
do waitpid(pid, status, WUNTRACED); while (!WIFEXITED && !WIFSIGNALED).
Given the sequence of statuses waitpid reports, it returns the first
terminal one; none means the loop never finds one and blocks forever. -/
def waitLoop : List WaitStatus → Option WaitStatus
  | [] => none
  | s :: rest => if isTerminal s then some s else waitLoop rest

/-- soshell_launch, parent side (main.c:160-183): a failed fork calls
perror and returns 1; otherwise the parent blocks in waitLoop and then
returns 1.  The child process runs childBranch in its own address space
and never contributes to the parent's World. -/
def soshell_launch : Handler := fun os w _ =>
  if os.forkOk then
    match waitLoop os.waits with
    | some _ => some (1, w)
    | none => none
  else
    some (1, { w with err := w.err ++ [perrorMsg os] })

/-- How the child's copy of the shell ends after fork. -/
inductive ChildOutcome where
  | imageReplaced
  | exitedWith (code : Nat)
  | returnedToShell
  deriving DecidableEq, Repr

/-- soshell_launch, child side (main.c:166-171): execvp(args[0], args)
either replaces the process image, or on failure the child calls
perror("soshell") and then exit(EXIT_FAILURE). -/
def childBranch (os : OS) (w : World) (args : List String) : ChildOutcome × World :=
  if os.execOk (args.headD "") then
    (ChildOutcome.imageReplaced, w)
  else
    (ChildOutcome.exitedWith EXIT_FAILURE, { w with err := w.err ++ [perrorMsg os] })

/-- The builtin handler table, in table order (main.c:38-44). -/
def builtin_func : List Handler :=
  [soshell_cd, soshell_ls, soshell_rm, soshell_help, soshell_exit]

/-- The name/handler pairs the dispatch loop scans (the two parallel
arrays builtin_str and builtin_func, iterated by the same index). -/
def builtins : List (String × Handler) := List.zip builtin_str builtin_func

/-- The for loop of soshell_execute (main.c:199-203): scan the table in
order; on the first strcmp match invoke that handler on the full token
sequence; if no name matches fall through to soshell_launch. -/
def dispatchLoop (os : OS) (w : World) (args : List String) (a0 : String) :
    List (String × Handler) → Option (Int × World)
  | [] => soshell_launch os w args
  | (name, f) :: rest =>
      if a0 = name then f os w args else dispatchLoop os w args a0 rest

/-- soshell_execute (main.c:190-206): an empty token sequence returns 1
immediately; otherwise the first token is dispatched through the builtin
table, defaulting to soshell_launch. -/
def soshell_execute (os : OS) (w : World) (args : List String) : Option (Int × World) :=
  match args with
  | [] => some (SIGNAL_CONTINUE, w)
  | a0 :: _ => dispatchLoop os w args a0 builtins

/-- SOSHELL_TOK_DELIM (main.c:266): space, tab, carriage return, newline,
bell. -/
def SOSHELL_TOK_DELIM : List Char := [' ', '\t', '\r', '\n', '\x07']

def isDelim (c : Char) : Bool := SOSHELL_TOK_DELIM.contains c

/-- The strtok loop of soshell_split_line (main.c:283-300) on the line's
characters: skip delimiters, then cut the maximal run of non-delimiter
characters as the next token. -/
def tokenize : List Char → List String
  | [] => []
  | c :: rest =>
      if isDelim c then tokenize rest
      else
        String.mk (c :: rest.takeWhile (fun d => !isDelim d)) ::
          tokenize (rest.dropWhile (fun d => !isDelim d))
  termination_by cs => cs.length
  decreasing_by
  · simp only [List.length_cons]
    omega
  · simp only [List.length_cons]
    have h := (List.dropWhile_sublist (l := rest) (fun d => !isDelim d)).length_le
    omega

/-- soshell_split_line (main.c:272-303): the token sequence of a line.
The null sentinel the C code writes after the last token is the end of
the returned list. -/
def soshell_split_line (line : String) : List String := tokenize line.data

/-- The tokenizer described by the specification's own words: the chunks
of the line between delimiter occurrences, with the empty chunks that
consecutive delimiters produce discarded, i.e. the maximal delimiter-free
substrings in order. -/
def specTokens (cs : List Char) : List String :=
  ((cs.splitOnP isDelim).filter (fun t => !t.isEmpty)).map String.mk

/-- LSH_RL_BUFSIZE (main.c:227): the initial line buffer capacity and the
increment added on each realloc. -/
def LSH_RL_BUFSIZE : Nat := 1024

/-- How one soshell_read_line call ends: either it returns a line of
text, or it terminates the whole process with the given exit code. -/
inductive ReadResult where
  | line (s : String)
  | procExit (code : Nat)
  deriving DecidableEq, Repr

/-- The character loop of soshell_read_line (main.c:238-261) over the
pending input characters (the end of the list is end-of-input): a newline
returns the accumulated text; end-of-input exits the process with
EXIT_SUCCESS; otherwise the character is stored, and when the position
reaches the buffer size the buffer is reallocated, exiting with
EXIT_FAILURE when that allocation fails.  alloc n tells whether the n-th
allocation call of this invocation succeeds (n = 0 is the initial
malloc). -/
def readLoop (alloc : Nat → Bool) : List Char → Nat → Nat → Nat → List Char → ReadResult
  | [], _, _, _, _ => ReadResult.procExit EXIT_SUCCESS
  | c :: rest, bufsize, position, allocCount, acc =>
      if c = '\n' then ReadResult.line (String.mk acc.reverse)
      else if bufsize ≤ position + 1 then
        if alloc allocCount then
          readLoop alloc rest (bufsize + LSH_RL_BUFSIZE) (position + 1) (allocCount + 1) (c :: acc)
        else ReadResult.procExit EXIT_FAILURE
      else readLoop alloc rest bufsize (position + 1) allocCount (c :: acc)

/-- soshell_read_line (main.c:227-262, the branch compiled when
SOSHELL_USE_STD_GETLINE is not defined, as in this repository): the
initial malloc (allocation 0) aborts with EXIT_FAILURE on failure,
then the character loop runs with a 1024-byte buffer. -/
def soshell_read_line (alloc : Nat → Bool) (input : List Char) : ReadResult :=
  if alloc 0 then readLoop alloc input LSH_RL_BUFSIZE 0 1 []
  else ReadResult.procExit EXIT_FAILURE

/-- An oracle on which every system call succeeds. -/
def osDemo : OS where
  chdirOk := fun _ _ => true
  chdirDest := fun _ d => d
  errnoMsg := "No such file or directory"
  removeOk := fun _ _ => true
  opendirOk := fun _ _ => true
  entries := fun _ _ => []
  forkOk := true
  execOk := fun _ => true
  waits := [WaitStatus.exited 0]

/-- An oracle on which every system call fails. -/
def osFail : OS where
  chdirOk := fun _ _ => false
  chdirDest := fun _ d => d
  errnoMsg := "Permission denied"
  removeOk := fun _ _ => false
  opendirOk := fun _ _ => false
  entries := fun _ _ => []
  forkOk := false
  execOk := fun _ => false
  waits := []

/-- An oracle whose child only ever reports stopped statuses. -/
def osHang : OS :=
  { osDemo with waits := [WaitStatus.stopped 19, WaitStatus.stopped 19] }

/-- A shell state with nothing printed yet. -/
def wDemo : World where
  cwd := "/home/user"
  removed := []
  out := []
  err := []

theorem cd_eq_missing (os : OS) (w : World) (args : List String)
    (h : args[1]? = none) :
    soshell_cd os w args = some (1, { w with err := w.err ++ [cdMissingArgMsg] }) := by
  simp [soshell_cd, h]

theorem cd_eq_ok (os : OS) (w : World) (args : List String) (d : String)
    (h : args[1]? = some d) (hb : os.chdirOk w.cwd d = true) :
    soshell_cd os w args = some (1, { w with cwd := os.chdirDest w.cwd d }) := by
  simp [soshell_cd, h, hb]

theorem cd_eq_fail (os : OS) (w : World) (args : List String) (d : String)
    (h : args[1]? = some d) (hb : os.chdirOk w.cwd d = false) :
    soshell_cd os w args = some (1, { w with err := w.err ++ [perrorMsg os] }) := by
  simp [soshell_cd, h, hb]

theorem ls_eq_arg_ok (os : OS) (w : World) (args : List String) (d : String)
    (h : args[1]? = some d) (hb : os.opendirOk w.cwd d = true) :
    soshell_ls os w args =
      some (1, { w with out := w.out ++ (os.entries w.cwd d).map (· ++ "\n") }) := by
  simp [soshell_ls, h, hb]

theorem ls_eq_arg_fail (os : OS) (w : World) (args : List String) (d : String)
    (h : args[1]? = some d) (hb : os.opendirOk w.cwd d = false) :
    soshell_ls os w args =
      some (1, { w with out := w.out ++ ["Unknown directory " ++ d ++ "\n"] }) := by
  simp [soshell_ls, h, hb]

theorem ls_eq_noarg_ok (os : OS) (w : World) (args : List String)
    (h : args[1]? = none) (hb : os.opendirOk w.cwd "." = true) :
    soshell_ls os w args =
      some (1, { w with out := w.out ++ (os.entries w.cwd ".").map (· ++ "\n") }) := by
  simp [soshell_ls, h, hb]

theorem ls_eq_noarg_fail (os : OS) (w : World) (args : List String)
    (h : args[1]? = none) (hb : os.opendirOk w.cwd "." = false) :
    soshell_ls os w args = none := by
  simp [soshell_ls, h, hb]

theorem rm_eq_missing (os : OS) (w : World) (args : List String)
    (h : args[1]? = none) :
    soshell_rm os w args = some (1, { w with out := w.out ++ [rmMissingArgMsg] }) := by
  simp [soshell_rm, h]

theorem rm_eq_ok (os : OS) (w : World) (args : List String) (f : String)
    (h : args[1]? = some f) (hb : os.removeOk w.cwd f = true) :
    soshell_rm os w args = some (1, { w with removed := w.removed ++ [(w.cwd, f)] }) := by
  simp [soshell_rm, h, hb]

theorem rm_eq_fail (os : OS) (w : World) (args : List String) (f : String)
    (h : args[1]? = some f) (hb : os.removeOk w.cwd f = false) :
    soshell_rm os w args = some (1, { w with out := w.out ++ [rmFailMsg] }) := by
  simp [soshell_rm, h, hb]

theorem launch_eq_forkfail (os : OS) (w : World) (args : List String)
    (h : os.forkOk = false) :
    soshell_launch os w args = some (1, { w with err := w.err ++ [perrorMsg os] }) := by
  simp [soshell_launch, h]

theorem launch_eq_reaped (os : OS) (w : World) (args : List String) (s : WaitStatus)
    (hf : os.forkOk = true) (hw : waitLoop os.waits = some s) :
    soshell_launch os w args = some (1, w) := by
  simp [soshell_launch, hf, hw]

theorem launch_eq_hang (os : OS) (w : World) (args : List String)
    (hf : os.forkOk = true) (hw : waitLoop os.waits = none) :
    soshell_launch os w args = none := by
  simp [soshell_launch, hf, hw]

theorem splitOnP_all_neg (l : List Char) (h : ∀ a ∈ l, isDelim a = false) :
    l.splitOnP isDelim = [l] := by
  induction l with
  | nil => rfl
  | cons a t ih =>
      have ha : isDelim a = false := h a (List.mem_cons_self a t)
      rw [List.splitOnP_cons, if_neg (by simp [ha]),
        ih (fun x hx => h x (List.mem_cons_of_mem a hx))]
      rfl

theorem splitOnP_break (w l : List Char) (d : Char)
    (hw : ∀ a ∈ w, isDelim a = false) (hd : isDelim d = true) :
    (w ++ d :: l).splitOnP isDelim = w :: l.splitOnP isDelim := by
  induction w with
  | nil =>
      simp only [List.nil_append, List.splitOnP_cons, hd, if_true]
  | cons a t ih =>
      have ha : isDelim a = false := hw a (List.mem_cons_self a t)
      rw [List.cons_append, List.splitOnP_cons, if_neg (by simp [ha]),
        ih (fun x hx => hw x (List.mem_cons_of_mem a hx))]
      rfl

theorem dropWhile_head_not (p : Char → Bool) (l : List Char) (d : Char) (l' : List Char)
    (h : l.dropWhile p = d :: l') : p d = false := by
  induction l with
  | nil => cases h
  | cons a t ih =>
      by_cases ha : p a = true
      · rw [List.dropWhile_cons_of_pos ha] at h
        exact ih h
      · rw [List.dropWhile_cons_of_neg ha] at h
        injection h with h1 _
        subst h1
        exact Bool.eq_false_iff.mpr ha

theorem tokenize_eq_specTokens (cs : List Char) : tokenize cs = specTokens cs := by
  induction cs using tokenize.induct with
  | case1 => simp [tokenize, specTokens]
  | case2 c rest hdelim ih =>
      rw [tokenize, if_pos hdelim, ih, specTokens, specTokens,
        List.splitOnP_cons, if_pos hdelim]
      simp
  | case3 c rest hdelim ih =>
      have hc : isDelim c = false := Bool.eq_false_iff.mpr hdelim
      have htall : ∀ a ∈ rest.takeWhile (fun d => !isDelim d), isDelim a = false := by
        intro a ha
        have h2 := List.mem_takeWhile_imp ha
        simpa using h2
      rw [tokenize, if_neg hdelim]
      cases hrc : rest.dropWhile (fun d => !isDelim d) with
      | nil =>
          have hteq : rest.takeWhile (fun d => !isDelim d) = rest := by
            have h3 := List.takeWhile_append_dropWhile (p := fun d => !isDelim d) (l := rest)
            rw [hrc, List.append_nil] at h3
            exact h3
          have hall : ∀ a ∈ c :: rest, isDelim a = false := by
            intro a ha
            rcases List.mem_cons.mp ha with h4 | h4
            · subst h4; exact hc
            · rw [← hteq] at h4
              exact htall a h4
          rw [hteq, specTokens, splitOnP_all_neg (c :: rest) hall]
          simp [tokenize]
      | cons d l' =>
          have hd : isDelim d = true := by
            have h5 := dropWhile_head_not (fun x => !isDelim x) rest d l' hrc
            simpa using h5
          have hcs : c :: rest = (c :: rest.takeWhile (fun x => !isDelim x)) ++ d :: l' := by
            have h3 := List.takeWhile_append_dropWhile (p := fun x => !isDelim x) (l := rest)
            rw [hrc] at h3
            rw [List.cons_append, h3]
          have hallct : ∀ a ∈ c :: rest.takeWhile (fun x => !isDelim x), isDelim a = false := by
            intro a ha
            rcases List.mem_cons.mp ha with h4 | h4
            · subst h4; exact hc
            · exact htall a h4
          have hs2 : specTokens (d :: l') = specTokens l' := by
            rw [specTokens, specTokens, List.splitOnP_cons, if_pos hd]
            simp
          rw [hrc] at ih
          rw [ih, hs2]
          conv_rhs => rw [hcs, specTokens,
            splitOnP_break (c :: rest.takeWhile (fun x => !isDelim x)) l' d hallct hd]
          simp [specTokens]

theorem tokenize_all_delim (cs : List Char) (h : ∀ c ∈ cs, isDelim c = true) :
    tokenize cs = [] := by
  induction cs with
  | nil => simp [tokenize]
  | cons c rest ih =>
      have hc := h c (List.mem_cons_self c rest)
      rw [tokenize, if_pos hc]
      exact ih (fun x hx => h x (List.mem_cons_of_mem c hx))

theorem tokenize_tokens_wf (cs : List Char) :
    ∀ t ∈ tokenize cs, t ≠ "" ∧ ∀ c ∈ t.data, isDelim c = false := by
  induction cs using tokenize.induct with
  | case1 => intro t ht; simp [tokenize] at ht
  | case2 c rest hdelim ih =>
      intro t ht
      rw [tokenize, if_pos hdelim] at ht
      exact ih t ht
  | case3 c rest hdelim ih =>
      intro t ht
      rw [tokenize, if_neg hdelim] at ht
      rcases List.mem_cons.mp ht with h | h
      · subst h
        refine ⟨?_, ?_⟩
        · intro hemp
          have hdata := congrArg String.data hemp
          simp at hdata
        · intro x hx
          rcases List.mem_cons.mp hx with h2 | h2
          · subst h2
            exact Bool.eq_false_iff.mpr hdelim
          · have h3 := List.mem_takeWhile_imp h2
            simpa using h3
      · exact ih t h

theorem readLoop_newline (alloc : Nat → Bool) (pre : List Char) (rest : List Char)
    (halloc : ∀ n, alloc n = true) (hpre : '\n' ∉ pre) :
    ∀ bufsize position allocCount acc,
      readLoop alloc (pre ++ '\n' :: rest) bufsize position allocCount acc =
        ReadResult.line (String.mk (acc.reverse ++ pre)) := by
  induction pre with
  | nil =>
      intro bufsize position allocCount acc
      simp [readLoop]
  | cons c t ih =>
      intro bufsize position allocCount acc
      have hc : ¬(c = '\n') := fun h => hpre (h ▸ List.mem_cons_self c t)
      have ht : '\n' ∉ t := fun h => hpre (List.mem_cons_of_mem c h)
      simp only [List.cons_append, readLoop, if_neg hc, List.append_eq]
      by_cases hb : bufsize ≤ position + 1
      · rw [if_pos hb, if_pos (halloc allocCount),
          ih ht (bufsize + LSH_RL_BUFSIZE) (position + 1) (allocCount + 1) (c :: acc)]
        simp
      · rw [if_neg hb, ih ht bufsize (position + 1) allocCount (c :: acc)]
        simp

theorem readLoop_eof (alloc : Nat → Bool) (input : List Char)
    (halloc : ∀ n, alloc n = true) (hnl : '\n' ∉ input) :
    ∀ bufsize position allocCount acc,
      readLoop alloc input bufsize position allocCount acc =
        ReadResult.procExit EXIT_SUCCESS := by
  induction input with
  | nil =>
      intro bufsize position allocCount acc
      simp [readLoop]
  | cons c t ih =>
      intro bufsize position allocCount acc
      have hc : ¬(c = '\n') := fun h => hnl (h ▸ List.mem_cons_self c t)
      have ht : '\n' ∉ t := fun h => hnl (List.mem_cons_of_mem c h)
      simp only [readLoop, if_neg hc]
      by_cases hb : bufsize ≤ position + 1
      · rw [if_pos hb, if_pos (halloc allocCount)]
        exact ih ht _ _ _ _
      · rw [if_neg hb]
        exact ih ht _ _ _ _

theorem readLoop_allocfail (alloc : Nat → Bool) (input : List Char)
    (hfail : ∀ n, 1 ≤ n → alloc n = false) (hnl : '\n' ∉ input) :
    ∀ bufsize position allocCount acc, 1 ≤ allocCount → position < bufsize →
      bufsize ≤ position + input.length →
      readLoop alloc input bufsize position allocCount acc =
        ReadResult.procExit EXIT_FAILURE := by
  induction input with
  | nil =>
      intro bufsize position allocCount acc hcnt hpos hlen
      simp only [List.length_nil, Nat.add_zero] at hlen
      omega
  | cons c t ih =>
      intro bufsize position allocCount acc hcnt hpos hlen
      have hc : ¬(c = '\n') := fun h => hnl (h ▸ List.mem_cons_self c t)
      have ht : '\n' ∉ t := fun h => hnl (List.mem_cons_of_mem c h)
      simp only [readLoop, if_neg hc]
      by_cases hb : bufsize ≤ position + 1
      · rw [if_pos hb, if_neg (by simp [hfail allocCount hcnt])]
      · rw [if_neg hb]
        refine ih ht bufsize (position + 1) allocCount (c :: acc) hcnt (by omega) ?_
        simp only [List.length_cons] at hlen
        omega

end Soshell

namespace Soshell

/-- Claim C1: soshell_execute on the empty token sequence returns the
continue signal at once with the world untouched (no handler, no launch);
on a nonempty sequence whose first token equals one of the five builtin
names it invokes exactly that builtin on the full token sequence and
returns its result; and when the first token matches no builtin name
(the comparison being exact and case-sensitive) it delegates to
soshell_launch and returns its result. -/
theorem C1_dispatch (os : OS) (w : World) (t : String) (rest : List String) :
    soshell_execute os w [] = some (SIGNAL_CONTINUE, w) ∧
    (t = "cd" → soshell_execute os w (t :: rest) = soshell_cd os w (t :: rest)) ∧
    (t = "ls" → soshell_execute os w (t :: rest) = soshell_ls os w (t :: rest)) ∧
    (t = "rm" → soshell_execute os w (t :: rest) = soshell_rm os w (t :: rest)) ∧
    (t = "help" → soshell_execute os w (t :: rest) = soshell_help os w (t :: rest)) ∧
    (t = "exit" → soshell_execute os w (t :: rest) = soshell_exit os w (t :: rest)) ∧
    (t ∉ builtin_str →
      soshell_execute os w (t :: rest) = soshell_launch os w (t :: rest)) := by
  refine ⟨rfl, ?_, ?_, ?_, ?_, ?_, ?_⟩ <;> intro h
  · subst h; rfl
  · subst h; rfl
  · subst h; rfl
  · subst h; rfl
  · subst h; rfl
  · simp only [builtin_str, List.mem_cons, List.not_mem_nil, or_false, not_or] at h
    obtain ⟨h1, h2, h3, h4, h5⟩ := h
    simp only [soshell_execute, dispatchLoop, builtins, builtin_str, builtin_func,
      List.zip, List.zipWith, if_neg h1, if_neg h2, if_neg h3, if_neg h4, if_neg h5]

/-- Claim C1, witnessed at the empty sequence and at the non-builtin
first token "echo". -/
theorem C1_dispatch_witness :
    "echo" ∉ builtin_str ∧
    soshell_execute osDemo wDemo [] = some (SIGNAL_CONTINUE, wDemo) ∧
    soshell_execute osDemo wDemo ["echo", "hi"] =
      soshell_launch osDemo wDemo ["echo", "hi"] := by
  refine ⟨by decide, (C1_dispatch osDemo wDemo "echo" ["hi"]).1, ?_⟩
  exact (C1_dispatch osDemo wDemo "echo" ["hi"]).2.2.2.2.2.2 (by decide)

/-- Claim C2: soshell_exit returns the terminate signal on every token
sequence; every normal return of soshell_cd, soshell_ls, soshell_rm,
soshell_help and soshell_launch carries the continue signal; and the
fork-failure branch of soshell_launch in particular returns continue. -/
theorem C2_signals (os : OS) (w : World) (args : List String) :
    soshell_exit os w args = some (SIGNAL_TERMINATE, w) ∧
    (∀ p, soshell_cd os w args = some p → p.1 = SIGNAL_CONTINUE) ∧
    (∀ p, soshell_ls os w args = some p → p.1 = SIGNAL_CONTINUE) ∧
    (∀ p, soshell_rm os w args = some p → p.1 = SIGNAL_CONTINUE) ∧
    (∀ p, soshell_help os w args = some p → p.1 = SIGNAL_CONTINUE) ∧
    (∀ p, soshell_launch os w args = some p → p.1 = SIGNAL_CONTINUE) ∧
    (os.forkOk = false →
      soshell_launch os w args =
        some (SIGNAL_CONTINUE, { w with err := w.err ++ [perrorMsg os] })) := by
  refine ⟨rfl, ?_, ?_, ?_, ?_, ?_, ?_⟩
  · intro p hp
    cases hget : args[1]? with
    | none => rw [cd_eq_missing os w args hget] at hp; cases hp; rfl
    | some d =>
        cases hb : os.chdirOk w.cwd d with
        | true => rw [cd_eq_ok os w args d hget hb] at hp; cases hp; rfl
        | false => rw [cd_eq_fail os w args d hget hb] at hp; cases hp; rfl
  · intro p hp
    cases hget : args[1]? with
    | none =>
        cases hb : os.opendirOk w.cwd "." with
        | true => rw [ls_eq_noarg_ok os w args hget hb] at hp; cases hp; rfl
        | false => rw [ls_eq_noarg_fail os w args hget hb] at hp; cases hp
    | some d =>
        cases hb : os.opendirOk w.cwd d with
        | true => rw [ls_eq_arg_ok os w args d hget hb] at hp; cases hp; rfl
        | false => rw [ls_eq_arg_fail os w args d hget hb] at hp; cases hp; rfl
  · intro p hp
    cases hget : args[1]? with
    | none => rw [rm_eq_missing os w args hget] at hp; cases hp; rfl
    | some f =>
        cases hb : os.removeOk w.cwd f with
        | true => rw [rm_eq_ok os w args f hget hb] at hp; cases hp; rfl
        | false => rw [rm_eq_fail os w args f hget hb] at hp; cases hp; rfl
  · intro p hp
    cases hp; rfl
  · intro p hp
    cases hf : os.forkOk with
    | false => rw [launch_eq_forkfail os w args hf] at hp; cases hp; rfl
    | true =>
        cases hw : waitLoop os.waits with
        | none => rw [launch_eq_hang os w args hf hw] at hp; cases hp
        | some s => rw [launch_eq_reaped os w args s hf hw] at hp; cases hp; rfl
  · intro hfork
    exact launch_eq_forkfail os w args hfork

/-- Claim C2, witnessed: exit terminates on a concrete input, a concrete
cd return carries continue, and a concrete fork failure returns
continue. -/
theorem C2_signals_witness :
    soshell_exit osDemo wDemo ["exit", "now"] = some (SIGNAL_TERMINATE, wDemo) ∧
    ((1 : Int), { wDemo with cwd := "/tmp" }).1 = SIGNAL_CONTINUE ∧
    osFail.forkOk = false ∧
    soshell_launch osFail wDemo ["echo"] =
      some (SIGNAL_CONTINUE, { wDemo with err := [perrorMsg osFail] }) := by
  refine ⟨(C2_signals osDemo wDemo ["exit", "now"]).1, ?_, rfl, ?_⟩
  · exact (C2_signals osDemo wDemo ["cd", "/tmp"]).2.1 ((1 : Int), { wDemo with cwd := "/tmp" }) rfl
  · exact (C2_signals osFail wDemo ["echo"]).2.2.2.2.2.2 rfl

theorem waitLoop_skips_nonterminal (pre : List WaitStatus) (l : List WaitStatus)
    (hpre : ∀ x ∈ pre, isTerminal x = false) :
    waitLoop (pre ++ l) = waitLoop l := by
  induction pre with
  | nil => rfl
  | cons s rest ih =>
      have hs : isTerminal s = false := hpre s (List.mem_cons_self s rest)
      simp only [List.cons_append, waitLoop, hs, Bool.false_eq_true, if_false]
      exact ih (fun x hx => hpre x (List.mem_cons_of_mem s hx))

theorem waitLoop_terminal (l : List WaitStatus) (s : WaitStatus)
    (h : waitLoop l = some s) : isTerminal s = true := by
  induction l with
  | nil => cases h
  | cons x rest ih =>
      by_cases hx : isTerminal x = true
      · simp only [waitLoop, hx, if_true] at h
        cases h; exact hx
      · simp only [waitLoop, hx, if_false] at h
        exact ih h

theorem waitLoop_all_stopped (l : List WaitStatus)
    (h : ∀ x ∈ l, isTerminal x = false) : waitLoop l = none := by
  induction l with
  | nil => rfl
  | cons x rest ih =>
      have hx : isTerminal x = false := h x (List.mem_cons_self x rest)
      simp only [waitLoop, hx, Bool.false_eq_true, if_false]
      exact ih (fun y hy => h y (List.mem_cons_of_mem x hy))

/-- Claim C4: the parent's wait loop skips every non-terminal (stopped)
status and completes at the first exited or signaled one, through any
number of stopped observations; a status it completes with is always
terminal; a status stream of stopped observations only never completes;
and in that case soshell_launch itself never returns. -/
theorem C4_wait (os : OS) (w : World) (args : List String)
    (pre l : List WaitStatus) (s : WaitStatus) :
    ((∀ x ∈ pre, isTerminal x = false) → isTerminal s = true →
      waitLoop (pre ++ s :: l) = some s) ∧
    (∀ s', waitLoop l = some s' → isTerminal s' = true) ∧
    ((∀ x ∈ l, isTerminal x = false) → waitLoop l = none) ∧
    (os.forkOk = true → waitLoop os.waits = none →
      soshell_launch os w args = none) := by
  refine ⟨?_, waitLoop_terminal l, waitLoop_all_stopped l, launch_eq_hang os w args⟩
  intro hpre hs
  rw [waitLoop_skips_nonterminal pre (s :: l) hpre]
  simp only [waitLoop, hs, if_true]

/-- Claim C4, witnessed: three stopped observations followed by a normal
exit complete the wait with that exit, and a stopped-only stream makes
soshell_launch hang. -/
theorem C4_wait_witness :
    waitLoop (List.replicate 3 (WaitStatus.stopped 19) ++
      WaitStatus.exited 0 :: []) = some (WaitStatus.exited 0) ∧
    waitLoop [WaitStatus.stopped 19, WaitStatus.stopped 19] = none ∧
    soshell_launch osHang wDemo ["sleep"] = none := by
  refine ⟨?_, ?_, ?_⟩
  · exact (C4_wait osHang wDemo ["sleep"] (List.replicate 3 (WaitStatus.stopped 19))
      [] (WaitStatus.exited 0)).1 (by decide) (by decide)
  · exact (C4_wait osHang wDemo ["sleep"] []
      [WaitStatus.stopped 19, WaitStatus.stopped 19] (WaitStatus.exited 0)).2.2.1 (by decide)
  · exact (C4_wait osHang wDemo ["sleep"] [] [] (WaitStatus.exited 0)).2.2.2 rfl (by decide)

/-- Claim C5: the child branch after fork never returns control to the
shell's dispatch logic, and when execvp fails it reports the error on
the diagnostic stream and terminates the child with EXIT_FAILURE. -/
theorem C5_child (os : OS) (w : World) (args : List String) :
    (childBranch os w args).1 ≠ ChildOutcome.returnedToShell ∧
    (os.execOk (args.headD "") = false →
      childBranch os w args =
        (ChildOutcome.exitedWith EXIT_FAILURE,
          { w with err := w.err ++ [perrorMsg os] })) := by
  constructor
  · cases hb : os.execOk (args.headD "") with
    | true => simp [childBranch, ← List.headD_eq_head?_getD, hb]
    | false => simp [childBranch, ← List.headD_eq_head?_getD, hb]
  · intro hb
    simp [childBranch, ← List.headD_eq_head?_getD, hb]

/-- Claim C5, witnessed at a concrete failing execvp. -/
theorem C5_child_witness :
    osFail.execOk (["nosuchcmd"].headD "") = false ∧
    childBranch osFail wDemo ["nosuchcmd"] =
      (ChildOutcome.exitedWith EXIT_FAILURE,
        { wDemo with err := [perrorMsg osFail] }) ∧
    (childBranch osFail wDemo ["nosuchcmd"]).1 ≠ ChildOutcome.returnedToShell := by
  refine ⟨rfl, ?_, (C5_child osFail wDemo ["nosuchcmd"]).1⟩
  have h := (C5_child osFail wDemo ["nosuchcmd"]).2 rfl
  simpa [wDemo] using h

/-- Claim C7: every normal return of soshell_cd carries the continue
signal and leaves stdout and the removal trace untouched; a missing
argument only appends the diagnostic message, keeping the working
directory; a failed chdir only appends the perror text, keeping the
working directory; and a successful chdir only changes the working
directory. -/
theorem C7_cd (os : OS) (w : World) (args : List String) :
    (∀ p, soshell_cd os w args = some p →
      p.1 = SIGNAL_CONTINUE ∧ p.2.out = w.out ∧ p.2.removed = w.removed) ∧
    (args[1]? = none →
      soshell_cd os w args =
        some (SIGNAL_CONTINUE, { w with err := w.err ++ [cdMissingArgMsg] })) ∧
    (∀ d, args[1]? = some d → os.chdirOk w.cwd d = false →
      soshell_cd os w args =
        some (SIGNAL_CONTINUE, { w with err := w.err ++ [perrorMsg os] })) ∧
    (∀ d, args[1]? = some d → os.chdirOk w.cwd d = true →
      soshell_cd os w args =
        some (SIGNAL_CONTINUE, { w with cwd := os.chdirDest w.cwd d })) := by
  refine ⟨?_, cd_eq_missing os w args, ?_, ?_⟩
  · intro p hp
    cases hget : args[1]? with
    | none =>
        rw [cd_eq_missing os w args hget] at hp
        cases hp; exact ⟨rfl, rfl, rfl⟩
    | some d =>
        cases hb : os.chdirOk w.cwd d with
        | true =>
            rw [cd_eq_ok os w args d hget hb] at hp
            cases hp; exact ⟨rfl, rfl, rfl⟩
        | false =>
            rw [cd_eq_fail os w args d hget hb] at hp
            cases hp; exact ⟨rfl, rfl, rfl⟩
  · intro d hget hb
    exact cd_eq_fail os w args d hget hb
  · intro d hget hb
    exact cd_eq_ok os w args d hget hb

/-- Claim C7, witnessed: cd with no argument on a concrete world appends
the diagnostic and keeps the working directory. -/
theorem C7_cd_witness :
    (["cd"] : List String)[1]? = none ∧
    soshell_cd osDemo wDemo ["cd"] =
      some (SIGNAL_CONTINUE, { wDemo with err := [cdMissingArgMsg] }) := by
  refine ⟨rfl, ?_⟩
  have h := (C7_cd osDemo wDemo ["cd"]).2.1 rfl
  simpa [wDemo] using h

/-- Claim C8 as stated is false: with no directory argument the code
never checks the result of opendir("."), so an open failure there is fed
straight to readdir (undefined behaviour, modelled as none) instead of
producing the "Unknown directory" message and a continue return.  At the
concrete input below the handler has no normal return at all. -/
theorem C8_ls_counterexample : soshell_ls osFail wDemo ["ls"] = none :=
  ls_eq_noarg_fail osFail wDemo ["ls"] rfl rfl

/-- Claim C8 amended: only when a directory argument is present does an
opendir failure produce the "Unknown directory" message (on stdout) with
nothing listed and a continue return; with no argument an opendir(".")
failure is unchecked and the handler has no normal return. -/
theorem C8_ls (os : OS) (w : World) (a0 d : String) (rest : List String) :
    (os.opendirOk w.cwd d = false →
      soshell_ls os w (a0 :: d :: rest) =
        some (SIGNAL_CONTINUE,
          { w with out := w.out ++ ["Unknown directory " ++ d ++ "\n"] })) ∧
    (os.opendirOk w.cwd "." = false → soshell_ls os w [a0] = none) := by
  constructor
  · intro hb
    exact ls_eq_arg_fail os w (a0 :: d :: rest) d (by simp) hb
  · intro hb
    exact ls_eq_noarg_fail os w [a0] (by simp) hb

/-- Claim C8 amended, witnessed at a concrete unopenable directory and at
the concrete unchecked no-argument case. -/
theorem C8_ls_witness :
    osFail.opendirOk wDemo.cwd "/nope" = false ∧
    soshell_ls osFail wDemo ["ls", "/nope"] =
      some (SIGNAL_CONTINUE,
        { wDemo with out := ["Unknown directory /nope\n"] }) ∧
    soshell_ls osFail wDemo ["ls"] = none := by
  refine ⟨rfl, ?_, (C8_ls osFail wDemo "ls" "/nope" []).2 rfl⟩
  have h := (C8_ls osFail wDemo "ls" "/nope" []).1 rfl
  simpa [wDemo] using h

/-- Claim C9 as stated is false: soshell_rm reports a missing argument
with printf, so the message lands on the normal output stream while the
diagnostic stream stays empty. -/
theorem C9_counterexample :
    soshell_rm osDemo wDemo ["rm"] =
      some (SIGNAL_CONTINUE, { wDemo with out := [rmMissingArgMsg] }) := by
  have h := rm_eq_missing osDemo wDemo ["rm"] rfl
  simpa [wDemo] using h

/-- Claim C9 amended: every recoverable error is reported as
human-readable text and the handler returns continue, but the stream
depends on the handler: cd argument and chdir errors, fork failure and
the child's exec failure go to the diagnostic stream, while rm argument
and removal errors and the ls unknown-directory message go to the normal
output stream. -/
theorem C9_errors (os : OS) (w : World) (args : List String) :
    (args[1]? = none →
      soshell_cd os w args =
        some (SIGNAL_CONTINUE, { w with err := w.err ++ [cdMissingArgMsg] }) ∧
      soshell_rm os w args =
        some (SIGNAL_CONTINUE, { w with out := w.out ++ [rmMissingArgMsg] })) ∧
    (∀ d, args[1]? = some d →
      (os.chdirOk w.cwd d = false →
        soshell_cd os w args =
          some (SIGNAL_CONTINUE, { w with err := w.err ++ [perrorMsg os] })) ∧
      (os.removeOk w.cwd d = false →
        soshell_rm os w args =
          some (SIGNAL_CONTINUE, { w with out := w.out ++ [rmFailMsg] })) ∧
      (os.opendirOk w.cwd d = false →
        soshell_ls os w args =
          some (SIGNAL_CONTINUE,
            { w with out := w.out ++ ["Unknown directory " ++ d ++ "\n"] }))) ∧
    (os.forkOk = false →
      soshell_launch os w args =
        some (SIGNAL_CONTINUE, { w with err := w.err ++ [perrorMsg os] })) ∧
    (os.execOk (args.headD "") = false →
      (childBranch os w args).2.err = w.err ++ [perrorMsg os]) := by
  refine ⟨?_, ?_, launch_eq_forkfail os w args, ?_⟩
  · intro hget
    exact ⟨cd_eq_missing os w args hget, rm_eq_missing os w args hget⟩
  · intro d hget
    exact ⟨cd_eq_fail os w args d hget, rm_eq_fail os w args d hget,
      ls_eq_arg_fail os w args d hget⟩
  · intro hb
    simp [childBranch, ← List.headD_eq_head?_getD, hb]

/-- Claim C9 amended, witnessed: a concrete failed remove prints its
message (to stdout) and returns continue. -/
theorem C9_errors_witness :
    (["rm", "ghost.txt"] : List String)[1]? = some "ghost.txt" ∧
    osFail.removeOk wDemo.cwd "ghost.txt" = false ∧
    soshell_rm osFail wDemo ["rm", "ghost.txt"] =
      some (SIGNAL_CONTINUE, { wDemo with out := [rmFailMsg] }) := by
  refine ⟨rfl, rfl, ?_⟩
  have h := ((C9_errors osFail wDemo ["rm", "ghost.txt"]).2.1 "ghost.txt" rfl).2.1 rfl
  simpa [wDemo] using h

/-- Claim C10: any two token sequences that agree on token 0 and token 1
make soshell_cd, soshell_ls and soshell_rm behave identically, and
soshell_help and soshell_exit behave identically on all token sequences:
no builtin ever examines a token beyond index 1. -/
theorem C10_first_two_tokens (os : OS) (w : World) (a b : List String) :
    (a[0]? = b[0]? → a[1]? = b[1]? →
      soshell_cd os w a = soshell_cd os w b ∧
      soshell_ls os w a = soshell_ls os w b ∧
      soshell_rm os w a = soshell_rm os w b) ∧
    soshell_help os w a = soshell_help os w b ∧
    soshell_exit os w a = soshell_exit os w b := by
  refine ⟨?_, rfl, rfl⟩
  intro _ h1
  refine ⟨?_, ?_, ?_⟩
  · simp only [soshell_cd, h1]
  · simp only [soshell_ls, h1]
  · simp only [soshell_rm, h1]

/-- Claim C10, witnessed: rm behaves the same whether or not extra
arguments follow the first two tokens. -/
theorem C10_first_two_tokens_witness :
    (["rm", "a.txt", "junk", "more"] : List String)[0]? =
      (["rm", "a.txt"] : List String)[0]? ∧
    (["rm", "a.txt", "junk", "more"] : List String)[1]? =
      (["rm", "a.txt"] : List String)[1]? ∧
    soshell_rm osDemo wDemo ["rm", "a.txt", "junk", "more"] =
      soshell_rm osDemo wDemo ["rm", "a.txt"] := by
  refine ⟨rfl, rfl, ?_⟩
  exact ((C10_first_two_tokens osDemo wDemo ["rm", "a.txt", "junk", "more"]
    ["rm", "a.txt"]).1 rfl rfl).2.2

/-- Claim C3: soshell_split_line produces exactly the maximal
delimiter-free substrings of the line, in order (proved by equivalence
with the independent splitOnP characterisation specTokens; the null
sentinel of the C token array is the end of the returned list); no token
is empty and no token contains a delimiter; tokenizing "  ls   -la  "
yields exactly the two tokens "ls" and "-la"; an all-whitespace line
yields no tokens; and the empty line yields the empty sequence. -/
theorem C3_tokenizer (line : String) (cs : List Char) :
    soshell_split_line line = specTokens line.data ∧
    (∀ t ∈ soshell_split_line line, t ≠ "" ∧ ∀ c ∈ t.data, isDelim c = false) ∧
    ((∀ c ∈ cs, isDelim c = true) → tokenize cs = []) ∧
    soshell_split_line "  ls   -la  " = ["ls", "-la"] ∧
    soshell_split_line "" = [] := by
  refine ⟨tokenize_eq_specTokens line.data, tokenize_tokens_wf line.data,
    tokenize_all_delim cs, ?_, ?_⟩
  · rw [soshell_split_line]
    simp only [show ("  ls   -la  ".data) =
      [' ', ' ', 'l', 's', ' ', ' ', ' ', '-', 'l', 'a', ' ', ' '] from rfl]
    simp [tokenize, isDelim, SOSHELL_TOK_DELIM]
  · rw [soshell_split_line]
    simp [show ("".data : List Char) = [] from rfl, tokenize]

/-- Claim C3, witnessed: a concrete all-whitespace character list (space,
tab, bell) yields no tokens, and the concrete example line splits into
its two tokens. -/
theorem C3_tokenizer_witness :
    (∀ c ∈ [' ', '\t', '\x07'], isDelim c = true) ∧
    tokenize [' ', '\t', '\x07'] = [] ∧
    soshell_split_line "  ls   -la  " = ["ls", "-la"] := by
  refine ⟨by decide, ?_, (C3_tokenizer "" [' ', '\t', '\x07']).2.2.2.1⟩
  exact (C3_tokenizer "" [' ', '\t', '\x07']).2.2.1 (by decide)

/-- Claim C6 as stated is false for a line terminated by end-of-input
with partial data pending: on the input consisting of the characters a, b
and then end-of-input, the reader does not return the line "ab"; it
terminates the whole process with the success status, discarding the
partial data (main.c:242-243 exits on EOF before the buffer is ever
returned). -/
theorem C6_read_counterexample :
    soshell_read_line (fun _ => true) ['a', 'b'] =
      ReadResult.procExit EXIT_SUCCESS ∧
    soshell_read_line (fun _ => true) ['a', 'b'] ≠
      ReadResult.line (String.mk ['a', 'b']) := by
  decide

/-- Claim C6 amended: a newline-terminated line is returned as its text
without the trailing newline; on end-of-input — with or without pending
partial data — the reader terminates the process with EXIT_SUCCESS; a
failure of the initial allocation terminates the process with
EXIT_FAILURE; and a failure of the reallocation while growing the buffer
(reached once the line is at least the initial 1024-byte capacity)
terminates the process with EXIT_FAILURE. -/
theorem C6_read_line (alloc : Nat → Bool) (pre rest input : List Char) :
    ((∀ n, alloc n = true) → '\n' ∉ pre →
      soshell_read_line alloc (pre ++ '\n' :: rest) = ReadResult.line (String.mk pre)) ∧
    ((∀ n, alloc n = true) → '\n' ∉ input →
      soshell_read_line alloc input = ReadResult.procExit EXIT_SUCCESS) ∧
    (alloc 0 = false → soshell_read_line alloc input = ReadResult.procExit EXIT_FAILURE) ∧
    (alloc 0 = true → (∀ n, 1 ≤ n → alloc n = false) → '\n' ∉ input →
      LSH_RL_BUFSIZE ≤ input.length →
      soshell_read_line alloc input = ReadResult.procExit EXIT_FAILURE) := by
  refine ⟨?_, ?_, ?_, ?_⟩
  · intro halloc hpre
    rw [soshell_read_line, if_pos (halloc 0),
      readLoop_newline alloc pre rest halloc hpre LSH_RL_BUFSIZE 0 1 []]
    simp
  · intro halloc hnl
    rw [soshell_read_line, if_pos (halloc 0)]
    exact readLoop_eof alloc input halloc hnl _ _ _ _
  · intro h0
    rw [soshell_read_line, if_neg (by simp [h0])]
  · intro h0 hfail hnl hlen
    rw [soshell_read_line, if_pos h0]
    exact readLoop_allocfail alloc input hfail hnl LSH_RL_BUFSIZE 0 1 []
      (le_refl 1) (by decide) (by simpa using hlen)

/-- Claim C6 amended, witnessed: a concrete newline-terminated line is
returned without the newline; concrete end-of-input with no data exits
with success; and a concrete 1024-character line whose only successful
allocation is the initial malloc exits with failure. -/
theorem C6_read_line_witness :
    soshell_read_line (fun _ => true) ['h', 'i', '\n'] =
      ReadResult.line (String.mk ['h', 'i']) ∧
    soshell_read_line (fun _ => true) [] = ReadResult.procExit EXIT_SUCCESS ∧
    soshell_read_line (fun n => n == 0) (List.replicate LSH_RL_BUFSIZE 'a') =
      ReadResult.procExit EXIT_FAILURE := by
  refine ⟨?_, ?_, ?_⟩
  · exact (C6_read_line (fun _ => true) ['h', 'i'] [] []).1 (fun _ => rfl) (by decide)
  · exact (C6_read_line (fun _ => true) [] [] []).2.1 (fun _ => rfl) (by decide)
  · refine (C6_read_line (fun n => n == 0) [] [] (List.replicate LSH_RL_BUFSIZE 'a')).2.2.2
      rfl ?_ (by simp) (by simp)
    intro n hn
    match n with
    | Nat.succ m => rfl

end Soshell
